import Mathlib

/-!
Shallow embedding of the page-classification and batch pipeline of
src/pdf_page_analyzer.py (class AnalysisThread).  Python strings are
modelled as Lean String, the word regex as maximal runs of word
characters, Python floats as rationals, and the external collaborators
(the PDF accessor, the enchant dictionary, the OCR engine) as oracle
fields and function parameters.  The is_running flag (flipped once by
stop, read at the checkpoints of run and analyze_pdf) is modelled by an
optional tick number cancelAt: reads of the flag are numbered in program
order and read false from tick cancelAt on.
-/

namespace PdfAnalyzer

/- Constants, lines 18-26 of the source.  The two thresholds passed to
AnalysisThread come from the GUI as Python floats, so they are rationals
here; the module constants below are their defaults. -/

def BLANK_PAGE_CHAR_THRESHOLD : ℚ := 100

def VALID_WORD_THRESHOLD : ℚ := 1/10

def WHITENESS_THRESHOLD : ℚ := 98/100

def MIN_IMAGE_SIZE_BYTES : Nat := 1024

def MAX_IMAGE_DIMENSION : Nat := 1000

def PIXEL_SAMPLING_STRIDE : Nat := 1000

/- ---------- is_blank_page (lines 102-103) ---------- -/

def is_blank_page (text : String) (char_threshold : ℚ) : Bool :=
  decide ((text.trim.length : ℚ) < char_threshold)

/- ---------- is_gibberish_page (lines 105-113) ---------- -/

/-- Word characters of the Python regex class w (ASCII fragment). -/
def isWordChar (c : Char) : Bool := c.isAlphanum || c == '_'

/-- Maximal runs of word characters; re.findall over the word-boundary
regex returns exactly the maximal runs of word characters, in order. -/
def tokenizeAux : List Char → List Char → List (List Char)
  | [], acc => if acc = [] then [] else [acc.reverse]
  | c :: cs, acc =>
    if isWordChar c then tokenizeAux cs (c :: acc)
    else if acc = [] then tokenizeAux cs []
    else acc.reverse :: tokenizeAux cs []

def tokenize (s : List Char) : List (List Char) := tokenizeAux s []

/-- Lines 105-113.  dict is the enchant dictionary oracle
(dictionary.check). -/
def is_gibberish_page (dict : String → Bool) (text : String)
    (valid_word_threshold : ℚ) : Bool :=
  if text.trim = "" then false
  else
    let words := tokenize text.toLower.data
    if words = [] then true
    else
      let valid_words := words.countP (fun w => dict (String.mk w) && decide (w.length > 1))
      decide (((valid_words : ℚ) / (words.length : ℚ)) < valid_word_threshold)

/- ---------- is_likely_blank_pixmap (lines 115-125) ---------- -/

/-- A raster pixmap already in RGB form: samples is the flat byte buffer
(3 bytes per pixel).  The convert_to_rgb branch of line 116-117 is the
identity on 3-channel data, which is what this structure holds. -/
structure Pixmap where
  width : Nat
  height : Nat
  samples : List Nat

/-- All three channels at byte offset i exceed 240 (line 123). -/
def whiteAt (buf : List Nat) (i : Nat) : Bool :=
  decide (buf.getD i 0 > 240) && decide (buf.getD (i+1) 0 > 240)
    && decide (buf.getD (i+2) 0 > 240)

/-- The generator of line 121-124: iterate i over range(0, len(buf), step)
counting the white samples. -/
def countWhite (buf : List Nat) (step : Nat) (i : Nat) : Nat :=
  if h : 0 < step ∧ i < buf.length then
    (if whiteAt buf i then 1 else 0) + countWhite buf step (i + step)
  else 0
termination_by buf.length - i
decreasing_by omega

def is_likely_blank_pixmap (pix : Pixmap)
    (whiteness_threshold : ℚ := WHITENESS_THRESHOLD) : Bool :=
  let total_pixels := pix.width * pix.height
  let stride := max 1 (total_pixels / PIXEL_SAMPLING_STRIDE)
  let white_pixels := countWhite pix.samples (stride * 3) 0
  decide (((white_pixels : ℚ) / ((total_pixels : ℚ) / (stride : ℚ))) > whiteness_threshold)

/- Claim-side formulation of the blank-pixmap test, written from the
words of C8: stride = max 1 (w*h / 1000); sample every stride-th pixel
starting at the first; a sampled pixel is white when all three of its
channels exceed 240; result is true iff white / ((w*h) / stride)
exceeds the whiteness threshold. -/

def specCountWhite (w h : Nat) (buf : List Nat) (stride : Nat) (k : Nat) : Nat :=
  if h' : 0 < stride ∧ k < w * h then
    (if whiteAt buf (3 * k) then 1 else 0) + specCountWhite w h buf stride (k + stride)
  else 0
termination_by w * h - k
decreasing_by omega

def blankPixmapSpec (w h : Nat) (buf : List Nat) (threshold : ℚ) : Bool :=
  let stride := max 1 (w * h / 1000)
  let white := specCountWhite w h buf stride 0
  decide (((white : ℚ) / (((w * h : Nat) : ℚ) / (stride : ℚ))) > threshold)

/-- Number of iterations of the sampling generator of lines 121-124: the
range over the byte buffer with step stride*3 runs ceil(len / (stride*3))
times, one inspected sample per iteration. -/
def inspectedSampleCount (pix : Pixmap) : Nat :=
  let total_pixels := pix.width * pix.height
  let stride := max 1 (total_pixels / PIXEL_SAMPLING_STRIDE)
  (pix.samples.length + stride * 3 - 1) / (stride * 3)

/- ---------- analyze_image (lines 151-175) ---------- -/

/-- One embedded image of a page, as the model sees it: the lowercased
extension and byte length reported by extract_image, the decoded pixel
dimensions, whether the decode-resize-convert-OCR sequence raises
(decodeOk = false models an exception caught at line 173), and the OCR
engine output as a function of the dimensions of the PIL image handed to
tesseract. -/
structure PageImage where
  ext : String
  byteLen : Nat
  width : Nat
  height : Nat
  decodeOk : Bool
  ocrOut : Nat × Nat → String

def supportedExts : List String := ["png", "jpeg", "jpg", "bmp", "tiff"]

/-- Lines 163-165: dimensions of the image handed to tesseract.  When a
dimension exceeds MAX_IMAGE_DIMENSION the image is resized to
(min w 1000, min h 1000), each dimension clamped independently. -/
def processedDims (w h : Nat) : Nat × Nat :=
  if w > MAX_IMAGE_DIMENSION || h > MAX_IMAGE_DIMENSION
  then (min w MAX_IMAGE_DIMENSION, min h MAX_IMAGE_DIMENSION)
  else (w, h)

/-- Lines 151-175: unsupported extension, undersized image, or any
caught exception contribute the empty string; otherwise the OCR output
on the processed image. -/
def analyze_image (img : PageImage) : String :=
  if !(supportedExts.contains img.ext) then ""
  else if img.byteLen < MIN_IMAGE_SIZE_BYTES then ""
  else if !img.decodeOk then ""
  else img.ocrOut (processedDims img.width img.height)

/- ---------- pages ---------- -/

/-- One page of an opened document.  text none models an exception at
line 196-200 (caught, treated as empty).  raster none models get_pixmap
raising inside extract_text_with_pymupdf_image; rasterOcr none models
the OCR call on the rasterized page raising (both caught at line 139).
images none models get_images raising (caught at line 147, the list
stays empty). -/
structure Page where
  text : Option String
  raster : Option Pixmap
  rasterOcr : Option String
  images : Option (List PageImage)

/-- Line 196-200: page.get_text, with the or-empty fallback and the
exception handler. -/
def pageText (p : Page) : String :=
  match p.text with
  | none => ""
  | some t => t

/-- Lines 143-149. -/
def imagesOf (p : Page) : List PageImage :=
  match p.images with
  | none => []
  | some l => l

/-- Lines 127-141: rasterize the page, skip OCR when the pixmap is
likely blank, otherwise OCR it; every failure yields the empty string. -/
def extract_text_with_pymupdf_image (p : Page) : String :=
  match p.raster with
  | none => ""
  | some pix =>
    if is_likely_blank_pixmap pix WHITENESS_THRESHOLD then ""
    else
      match p.rasterOcr with
      | none => ""
      | some t => t

/- ---------- the per-page cascade (lines 202-243) ---------- -/

/-- The fast-accept condition of line 202-203, a function of the native
text alone. -/
def fastAccept (bt vt : ℚ) (dict : String → Bool) (text : String) : Bool :=
  decide ((text.trim.length : ℚ) ≥ bt) && ! is_gibberish_page dict text vt

/-- Text used by the combined classification: the native text, replaced
by the rasterize-and-OCR fallback when it is pure whitespace (line
214-215). -/
def finalText (p : Page) : String :=
  if (pageText p).trim = "" then extract_text_with_pymupdf_image p else pageText p

/-- The accumulation image_text += analyze_image(...) + " " of line 224,
as a right fold (the two agree by associativity of append). -/
def imageTextOf : List PageImage → String
  | [] => ""
  | img :: rest => analyze_image img ++ " " ++ imageTextOf rest

/-- Line 226. -/
def combinedTextOf (p : Page) : String :=
  finalText p ++ " " ++ imageTextOf (imagesOf p)

inductive PageStatus
  | Blank
  | Gibberish
  | Billable
deriving DecidableEq, Repr

/-- Lines 228-236: the status of the combined text. -/
def classifyCombined (bt vt : ℚ) (dict : String → Bool) (s : String) : PageStatus :=
  if is_blank_page s bt then PageStatus.Blank
  else if is_gibberish_page dict s vt then PageStatus.Gibberish
  else PageStatus.Billable

/-- The classification outcome of one page, ignoring cancellation: the
status and the recorded text length len(text) of lines 211 and 243. -/
def classifyPagePure (bt vt : ℚ) (dict : String → Bool) (p : Page) : PageStatus × Nat :=
  let text := pageText p
  if fastAccept bt vt dict text then (PageStatus.Billable, text.length)
  else (classifyCombined bt vt dict (combinedTextOf p), (finalText p).length)

/- ---------- call instrumentation ---------- -/

/-- External calls a page classification can make: rasterizing the page,
OCR on the raster, decoding an embedded image, OCR on an embedded
image. -/
inductive ExtCall
  | rasterize
  | pageOcr
  | imageDecode
  | imageOcr
deriving DecidableEq, Repr

/-- Calls made by extract_text_with_pymupdf_image: get_pixmap is always
attempted; the OCR call happens when the pixmap was produced and was not
judged blank (when the sequence raises later, the calls up to the raise
are abstracted into this same list). -/
def rasterCallsOf (p : Page) : List ExtCall :=
  ExtCall.rasterize ::
    (match p.raster with
     | none => []
     | some pix =>
       if is_likely_blank_pixmap pix WHITENESS_THRESHOLD then []
       else [ExtCall.pageOcr])

/-- Calls made by analyze_image on one image: nothing when the extension
or size filter rejects it; otherwise the decode, and the OCR call when
the decode-through-OCR sequence does not raise. -/
def imageCallsOf (img : PageImage) : List ExtCall :=
  if !(supportedExts.contains img.ext) then []
  else if img.byteLen < MIN_IMAGE_SIZE_BYTES then []
  else ExtCall.imageDecode :: (if img.decodeOk then [ExtCall.imageOcr] else [])

def imageCallsPure : List PageImage → List ExtCall
  | [] => []
  | img :: rest => imageCallsOf img ++ imageCallsPure rest

/- ---------- cancellation ---------- -/

/-- The value the is_running flag reads at its n-th read (reads numbered
in program order from 0): true until tick cancelAt, false from then on;
none means stop is never called. -/
def isRunningAt (cancelAt : Option Nat) (n : Nat) : Bool :=
  match cancelAt with
  | none => true
  | some k => decide (n < k)

/-- Result of processing one page: none when the flag was seen false at
one of the checkpoints inside the image loop (lines 221-223), otherwise
the status and recorded text length; chkOut is the flag-read counter
after the page; calls is the instrumentation trace. -/
structure PageRun where
  result : Option (PageStatus × Nat)
  chkOut : Nat
  calls : List ExtCall

/-- The image loop of lines 219-224: before each image the flag is read
(one tick); on a false read the document returns None. -/
def imageLoop (cancelAt : Option Nat) :
    Nat → List PageImage → String → List ExtCall → Option String × Nat × List ExtCall
  | chk, [], acc, calls => (some acc, chk, calls)
  | chk, img :: rest, acc, calls =>
    if isRunningAt cancelAt chk then
      imageLoop cancelAt (chk + 1) rest (acc ++ analyze_image img ++ " ")
        (calls ++ imageCallsOf img)
    else (none, chk + 1, calls)

/-- Lines 195-243: one page of the loop body of analyze_pdf, starting
after the before-page flag read. -/
def processPage (bt vt : ℚ) (dict : String → Bool) (cancelAt : Option Nat)
    (chk : Nat) (p : Page) : PageRun :=
  let text := pageText p
  if fastAccept bt vt dict text then
    ⟨some (PageStatus.Billable, text.length), chk, []⟩
  else
    let fb := text.trim = ""
    let text := if fb then extract_text_with_pymupdf_image p else text
    let calls0 := if fb then rasterCallsOf p else []
    match imageLoop cancelAt chk (imagesOf p) "" calls0 with
    | (none, chk', calls) => ⟨none, chk', calls⟩
    | (some image_text, chk', calls) =>
      let combined := text ++ " " ++ image_text
      ⟨some (classifyCombined bt vt dict combined, text.length), chk', calls⟩

/- ---------- analyze_pdf (lines 177-259) ---------- -/

/-- One row of page_details (lines 211 and 243): page number (1-based),
status, len(text). -/
structure PageRecord where
  page_number : Nat
  status : PageStatus
  text_length : Nat
deriving DecidableEq, Repr

/-- The rows the page loop appends for pages indexed i, i+1, ... when no
cancellation interferes. -/
def recordsFrom (bt vt : ℚ) (dict : String → Bool) : Nat → List Page → List PageRecord
  | _, [] => []
  | i, p :: rest =>
    let r := classifyPagePure bt vt dict p
    ⟨i + 1, r.1, r.2⟩ :: recordsFrom bt vt dict (i + 1) rest

def countStatus (s : PageStatus) (recs : List PageRecord) : Nat :=
  recs.countP (fun r => decide (r.status = s))

/-- The report dict of lines 253-259. -/
structure DocReport where
  total_pages : Nat
  blank_pages : Nat
  gibberish_pages : Nat
  billable_pages : Nat
  page_details : List PageRecord
deriving DecidableEq, Repr

/-- The page loop of lines 187-243: before each page one flag read; a
false read (or a false read inside the image loop) makes analyze_pdf
return None, discarding the partial counts and details. -/
def pagesLoop (bt vt : ℚ) (dict : String → Bool) (cancelAt : Option Nat) :
    Nat → Nat → List Page → Nat → Nat → Nat → List PageRecord →
    Option (Nat × Nat × Nat × List PageRecord) × Nat
  | chk, _, [], b, g, l, det => (some (b, g, l, det), chk)
  | chk, i, p :: rest, b, g, l, det =>
    if isRunningAt cancelAt chk then
      match processPage bt vt dict cancelAt (chk + 1) p with
      | ⟨none, chk', _⟩ => (none, chk')
      | ⟨some (st, len), chk', _⟩ =>
        pagesLoop bt vt dict cancelAt chk' (i + 1) rest
          (if st = PageStatus.Blank then b + 1 else b)
          (if st = PageStatus.Gibberish then g + 1 else g)
          (if st = PageStatus.Billable then l + 1 else l)
          (det ++ [⟨i + 1, st, len⟩])
    else (none, chk + 1)

/-- Opening a document either yields its pages or raises (caught at line
249, analyze_pdf then returns None). -/
inductive OpenResult
  | ok (pages : List Page)
  | openError

/-- Lines 177-259. -/
def analyze_pdf (bt vt : ℚ) (dict : String → Bool) (cancelAt : Option Nat)
    (chk : Nat) : OpenResult → Option DocReport × Nat
  | OpenResult.openError => (none, chk)
  | OpenResult.ok pages =>
    match pagesLoop bt vt dict cancelAt chk 0 pages 0 0 0 [] with
    | (none, chk') => (none, chk')
    | (some (b, g, l, det), chk') => (some ⟨pages.length, b, g, l, det⟩, chk')

/- ---------- run (lines 70-97) ---------- -/

/-- The two terminal signals of run: analysis_complete with the ordered
results, or analysis_failed with a message. -/
inductive Outcome
  | complete (results : List (String × DocReport))
  | failed (msg : String)
deriving DecidableEq, Repr

def failedMsg : String := "Analysis failed. Check the log for details."

def cancelledMsg : String := "Analysis cancelled."

/-- Message of the NameError raised at line 87 when the local filename
was never bound (the Python text quotes the identifier; quotes elided
here). -/
def nameErrorMsg : String := "Error: name filename is not defined"

/-- The document loop of lines 74-87.  lastF models the local variable
filename, bound only at line 81 when a document produced a result; the
progress emit of line 87 reads it, raising NameError when it is unbound,
which the handler at line 96 turns into analysis_failed.  A false flag
read at line 75 breaks out of the loop. -/
def runLoopFrom (bt vt : ℚ) (dict : String → Bool) (cancelAt : Option Nat) :
    Nat → List (String × OpenResult) → List (String × DocReport) → Option String →
    Except String (List (String × DocReport) × Nat)
  | chk, [], all, _ => Except.ok (all, chk)
  | chk, (name, d) :: rest, all, lastF =>
    if isRunningAt cancelAt chk then
      match analyze_pdf bt vt dict cancelAt (chk + 1) d with
      | (some rep, chk') =>
        runLoopFrom bt vt dict cancelAt chk' rest (all ++ [(name, rep)]) (some name)
      | (none, chk') =>
        match lastF with
        | none => Except.error nameErrorMsg
        | some _ => runLoopFrom bt vt dict cancelAt chk' rest all lastF
    else Except.ok (all, chk + 1)

/-- Lines 89-97: after the loop one more flag read decides between the
cancelled message and the complete or empty-failure signal; an escaped
exception becomes analysis_failed with its message. -/
def runBatchFrom (bt vt : ℚ) (dict : String → Bool) (cancelAt : Option Nat)
    (chk : Nat) (docs : List (String × OpenResult))
    (all : List (String × DocReport)) (lastF : Option String) : Outcome :=
  match runLoopFrom bt vt dict cancelAt chk docs all lastF with
  | Except.error msg => Outcome.failed msg
  | Except.ok (results, chk') =>
    if isRunningAt cancelAt chk' then
      if results = [] then Outcome.failed failedMsg else Outcome.complete results
    else Outcome.failed cancelledMsg

/-- Lines 70-97: the whole worker run over a list of documents. -/
def runBatch (bt vt : ℚ) (dict : String → Bool) (cancelAt : Option Nat)
    (docs : List (String × OpenResult)) : Outcome :=
  runBatchFrom bt vt dict cancelAt 0 docs [] none

def emptyReport : DocReport := ⟨0, 0, 0, 0, []⟩

/- ---------- concrete inputs used by witnesses and counterexamples ---------- -/

def dictAll : String → Bool := fun _ => true

def helloText : String := "hello"

def xText : String := "x"

/-- A page whose native text fast-accepts at threshold 1. -/
def pageHello : Page :=
  { text := some helloText, raster := none, rasterOcr := none, images := some [] }

def imgGifA : PageImage := ⟨"gif", 4096, 10, 10, true, fun _ => "zz"⟩

def imgGifB : PageImage := ⟨"gif", 4096, 10, 10, true, fun _ => "ww"⟩

/-- A page that fails fast-accept at threshold 1 (its one token has
length 1) and carries two embedded images. -/
def pageTwoImgs : Page :=
  { text := some xText, raster := none, rasterOcr := none, images := some [imgGifA, imgGifB] }

/-- A supported image below the minimum byte size. -/
def imgSmall : PageImage := ⟨"png", 10, 10, 10, true, fun _ => "s"⟩

/-- A supported image whose decode or OCR raises. -/
def imgBad : PageImage := ⟨"png", 4096, 10, 10, false, fun _ => "b"⟩

/-- A supported image wider than the maximum dimension. -/
def imgBig : PageImage := ⟨"png", 4096, 2000, 500, true, fun _ => "big"⟩

/-- A page with one short token and no images. -/
def pageX : Page :=
  { text := some xText, raster := none, rasterOcr := none, images := some [] }

/-- Same native text as pageHello but different raster and image inputs. -/
def pageHelloB : Page :=
  { text := some helloText, raster := some ⟨1, 1, [0, 0, 0]⟩,
    rasterOcr := some helloText, images := some [imgGifA] }

def repHello : DocReport := ⟨1, 0, 0, 1, [⟨1, PageStatus.Billable, 5⟩]⟩

def badName : String := "bad.pdf"

def goodName : String := "good.pdf"

def aName : String := "a.pdf"

def bName : String := "b.pdf"

/- ==================== helper lemmas ==================== -/

theorem imageLoop_none (imgs : List PageImage) :
    ∀ (chk : Nat) (acc : String) (calls : List ExtCall),
      imageLoop none chk imgs acc calls
        = (some (acc ++ imageTextOf imgs), chk + imgs.length, calls ++ imageCallsPure imgs) := by
  induction imgs with
  | nil =>
    intro chk acc calls
    simp [imageLoop, imageTextOf, imageCallsPure]
  | cons img rest ih =>
    intro chk acc calls
    rw [imageLoop]
    simp only [isRunningAt, if_true]
    rw [ih]
    simp [imageTextOf, imageCallsPure, String.append_assoc, List.append_assoc]
    omega

theorem processPage_none (bt vt : ℚ) (dict : String → Bool) (chk : Nat) (p : Page) :
    processPage bt vt dict none chk p
      = ⟨some (classifyPagePure bt vt dict p),
         chk + (if fastAccept bt vt dict (pageText p) then 0 else (imagesOf p).length),
         if fastAccept bt vt dict (pageText p) then []
         else (if (pageText p).trim = "" then rasterCallsOf p else [])
           ++ imageCallsPure (imagesOf p)⟩ := by
  by_cases hf : fastAccept bt vt dict (pageText p)
  · simp [processPage, classifyPagePure, hf]
  · simp only [processPage, classifyPagePure, hf, Bool.false_eq_true, if_false]
    rw [imageLoop_none]
    simp [combinedTextOf, finalText]

theorem imageLoop_some (imgs : List PageImage) :
    ∀ (cancelAt : Option Nat) (chk : Nat) (acc : String) (calls : List ExtCall)
      (s : String) (c : Nat) (cs : List ExtCall),
      imageLoop cancelAt chk imgs acc calls = (some s, c, cs) →
      s = acc ++ imageTextOf imgs := by
  induction imgs with
  | nil =>
    intro ca chk acc calls s c cs h
    rw [imageLoop] at h
    simp only [Prod.mk.injEq, Option.some.injEq] at h
    simp [imageTextOf, h.1.symm]
  | cons img rest ih =>
    intro ca chk acc calls s c cs h
    rw [imageLoop] at h
    by_cases hr : isRunningAt ca chk
    · rw [if_pos hr] at h
      have := ih ca (chk + 1) (acc ++ analyze_image img ++ " ") (calls ++ imageCallsOf img)
        s c cs h
      simp [imageTextOf, this, String.append_assoc]
    · rw [if_neg hr] at h
      simp at h

theorem processPage_some (bt vt : ℚ) (dict : String → Bool) (ca : Option Nat)
    (chk : Nat) (p : Page) (r : PageStatus × Nat)
    (h : (processPage bt vt dict ca chk p).result = some r) :
    r = classifyPagePure bt vt dict p := by
  by_cases hf : fastAccept bt vt dict (pageText p)
  · simp [processPage, hf] at h
    simp [classifyPagePure, hf, h.symm]
  · simp only [processPage, hf, Bool.false_eq_true, if_false] at h
    rcases hIL : imageLoop ca chk (imagesOf p)
        "" (if (pageText p).trim = "" then rasterCallsOf p else []) with ⟨o, c, cs⟩
    cases o with
    | none =>
      rw [hIL] at h
      simp at h
    | some s =>
      rw [hIL] at h
      simp only [Option.some.injEq] at h
      have hs := imageLoop_some (imagesOf p) ca chk
        "" (if (pageText p).trim = "" then rasterCallsOf p else []) s c cs hIL
      simp [classifyPagePure, hf, combinedTextOf, finalText, ← h, hs]

theorem recordsFrom_length (bt vt : ℚ) (dict : String → Bool) :
    ∀ (pages : List Page) (i : Nat),
      (recordsFrom bt vt dict i pages).length = pages.length := by
  intro pages
  induction pages with
  | nil => intro i; simp [recordsFrom]
  | cons p rest ih => intro i; simp [recordsFrom, ih]

theorem recordsFrom_pageNums (bt vt : ℚ) (dict : String → Bool) :
    ∀ (pages : List Page) (i : Nat),
      (recordsFrom bt vt dict i pages).map (fun r => r.page_number)
        = List.range' (i + 1) pages.length := by
  intro pages
  induction pages with
  | nil => intro i; simp [recordsFrom]
  | cons p rest ih =>
    intro i
    rw [recordsFrom]
    simp only [List.map_cons, List.length_cons, List.range'_succ]
    rw [ih (i + 1)]

theorem countStatus_sum (recs : List PageRecord) :
    countStatus PageStatus.Blank recs + countStatus PageStatus.Gibberish recs
      + countStatus PageStatus.Billable recs = recs.length := by
  induction recs with
  | nil => simp [countStatus]
  | cons r rest ih =>
    simp only [countStatus, List.countP_cons, List.length_cons] at *
    cases hst : r.status <;> simp [hst] <;> omega

theorem pagesLoop_some (bt vt : ℚ) (dict : String → Bool) (ca : Option Nat)
    (pages : List Page) :
    ∀ (chk i b g l : Nat) (det : List PageRecord)
      (b' g' l' : Nat) (det' : List PageRecord) (c : Nat),
      pagesLoop bt vt dict ca chk i pages b g l det = (some (b', g', l', det'), c) →
      b' = b + countStatus PageStatus.Blank (recordsFrom bt vt dict i pages)
      ∧ g' = g + countStatus PageStatus.Gibberish (recordsFrom bt vt dict i pages)
      ∧ l' = l + countStatus PageStatus.Billable (recordsFrom bt vt dict i pages)
      ∧ det' = det ++ recordsFrom bt vt dict i pages := by
  induction pages with
  | nil =>
    intro chk i b g l det b' g' l' det' c h
    rw [pagesLoop] at h
    simp only [Prod.mk.injEq, Option.some.injEq] at h
    obtain ⟨⟨hb, hg, hl, hd⟩, _⟩ := h
    simp [recordsFrom, countStatus, hb.symm, hg.symm, hl.symm, hd.symm]
  | cons p rest ih =>
    intro chk i b g l det b' g' l' det' c h
    rw [pagesLoop] at h
    by_cases hr : isRunningAt ca chk
    · rw [if_pos hr] at h
      rcases hpp : processPage bt vt dict ca (chk + 1) p with ⟨res, c2, cs⟩
      rw [hpp] at h
      cases res with
      | none => simp at h
      | some r =>
        have hcls : r = classifyPagePure bt vt dict p := by
          apply processPage_some bt vt dict ca (chk + 1) p r
          rw [hpp]
        rcases r with ⟨st, len⟩
        simp only at h
        have hrec : recordsFrom bt vt dict i (p :: rest)
            = ⟨i + 1, st, len⟩ :: recordsFrom bt vt dict (i + 1) rest := by
          rw [recordsFrom, ← hcls]
        obtain ⟨hb, hg, hl, hd⟩ := ih c2 (i + 1)
          (if st = PageStatus.Blank then b + 1 else b)
          (if st = PageStatus.Gibberish then g + 1 else g)
          (if st = PageStatus.Billable then l + 1 else l)
          (det ++ [⟨i + 1, st, len⟩]) b' g' l' det' c h
        rw [hrec]
        simp only [countStatus, List.countP_cons] at *
        refine ⟨?_, ?_, ?_, ?_⟩
        · cases st <;> simp at hb ⊢ <;> omega
        · cases st <;> simp at hg ⊢ <;> omega
        · cases st <;> simp at hl ⊢ <;> omega
        · simp [hd, List.append_assoc]
    · rw [if_neg hr] at h
      simp at h

/- ==================== claim theorems ==================== -/

/-- Claim C1: for every page that does not take the fast-accept path, the
final status is computed from combined_text = text plus a space plus
image_text: Blank when the trimmed combined text is shorter than
blank_char_threshold, otherwise Gibberish when the gibberish ratio test
fails, otherwise Billable; in particular a trimmed combined text shorter
than the threshold yields Blank regardless of the valid-word ratio. -/
theorem C1_combined_classification (bt vt : ℚ) (dict : String → Bool)
    (chk : Nat) (p : Page)
    (h : fastAccept bt vt dict (pageText p) = false) :
    (processPage bt vt dict none chk p).result
      = some (classifyCombined bt vt dict (combinedTextOf p), (finalText p).length)
    ∧ (((combinedTextOf p).trim.length : ℚ) < bt →
        (processPage bt vt dict none chk p).result
          = some (PageStatus.Blank, (finalText p).length)) := by
  constructor
  · rw [processPage_none]
    simp [classifyPagePure, h]
  · intro hlt
    rw [processPage_none]
    simp [classifyPagePure, h, classifyCombined, is_blank_page, hlt]

/-- Witness for C1 at a concrete page: threshold 5, native text of one
character, no images; the page fails fast-accept, its trimmed combined
text is shorter than the threshold, and it is classified Blank. -/
theorem C1_witness :
    fastAccept 5 (1/10) dictAll (pageText pageX) = false
    ∧ ((combinedTextOf pageX).trim.length : ℚ) < 5
    ∧ (processPage 5 (1/10) dictAll none 0 pageX).result
        = some (PageStatus.Blank, (finalText pageX).length) :=
  ⟨by with_unfolding_all decide, by with_unfolding_all decide,
    (C1_combined_classification 5 (1/10) dictAll 0 pageX
        (by with_unfolding_all decide)).2 (by with_unfolding_all decide)⟩

/-- Claim C2: on any text with at least one non-whitespace character the
gibberish test tokenizes the lowercased text into word-regex tokens,
declares gibberish when there are zero tokens, and otherwise declares
gibberish exactly when the fraction of dictionary-valid tokens of length
greater than one is strictly below the valid-word-ratio threshold. -/
theorem C2_gibberish_formula (dict : String → Bool) (vt : ℚ) (text : String)
    (h : text.trim ≠ "") :
    is_gibberish_page dict text vt
      = (if tokenize text.toLower.data = [] then true
         else decide (((((tokenize text.toLower.data).filter
              (fun w => dict (String.mk w) && decide (w.length > 1))).length : ℚ)
            / ((tokenize text.toLower.data).length : ℚ)) < vt)) := by
  rw [is_gibberish_page, if_neg h]
  simp [List.countP_eq_length_filter]

/-- Witness for C2 at a concrete text: one token of length one, dictionary
accepting everything, threshold one half; both sides evaluate to true. -/
theorem C2_witness :
    xText.trim ≠ ""
    ∧ is_gibberish_page dictAll xText (1/2)
      = (if tokenize xText.toLower.data = [] then true
         else decide (((((tokenize xText.toLower.data).filter
              (fun w => dictAll (String.mk w) && decide (w.length > 1))).length : ℚ)
            / ((tokenize xText.toLower.data).length : ℚ)) < (1/2))) :=
  ⟨by with_unfolding_all decide,
    C2_gibberish_formula dictAll (1/2) xText (by with_unfolding_all decide)⟩

/-- Claim C3: every completed (non-cancelled, successfully opened)
document report satisfies blank + gibberish + billable = total_pages =
number of pages, each count equals the number of records with that
status, every page contributes exactly one record, and the page numbers
of the records are exactly 1, 2, ..., total_pages in order. -/
theorem C3_report_invariant (bt vt : ℚ) (dict : String → Bool) (ca : Option Nat)
    (chk : Nat) (pages : List Page) (rep : DocReport)
    (h : (analyze_pdf bt vt dict ca chk (OpenResult.ok pages)).1 = some rep) :
    rep.total_pages = pages.length
    ∧ rep.page_details.length = pages.length
    ∧ rep.blank_pages = countStatus PageStatus.Blank rep.page_details
    ∧ rep.gibberish_pages = countStatus PageStatus.Gibberish rep.page_details
    ∧ rep.billable_pages = countStatus PageStatus.Billable rep.page_details
    ∧ rep.blank_pages + rep.gibberish_pages + rep.billable_pages = rep.total_pages
    ∧ rep.page_details.map (fun r => r.page_number) = List.range' 1 pages.length := by
  rw [analyze_pdf] at h
  rcases hpl : pagesLoop bt vt dict ca chk 0 pages 0 0 0 [] with ⟨o, c⟩
  rw [hpl] at h
  cases o with
  | none => simp at h
  | some q =>
    rcases q with ⟨b, g, l, det⟩
    simp only [Option.some.injEq] at h
    obtain ⟨hb, hg, hl, hd⟩ :=
      pagesLoop_some bt vt dict ca pages chk 0 0 0 0 [] b g l det c hpl
    simp only [Nat.zero_add, List.nil_append] at hb hg hl hd
    subst h
    subst hd
    subst hb
    subst hg
    subst hl
    refine ⟨rfl, recordsFrom_length bt vt dict pages 0, rfl, rfl, rfl, ?_, ?_⟩
    · rw [countStatus_sum, recordsFrom_length]
    · exact recordsFrom_pageNums bt vt dict pages 0

/-- Witness for C3 at a concrete one-page document that completes. -/
theorem C3_witness :
    (analyze_pdf 1 (1/10) dictAll none 0 (OpenResult.ok [pageHello])).1 = some repHello
    ∧ (repHello.total_pages = [pageHello].length
      ∧ repHello.page_details.length = [pageHello].length
      ∧ repHello.blank_pages = countStatus PageStatus.Blank repHello.page_details
      ∧ repHello.gibberish_pages = countStatus PageStatus.Gibberish repHello.page_details
      ∧ repHello.billable_pages = countStatus PageStatus.Billable repHello.page_details
      ∧ repHello.blank_pages + repHello.gibberish_pages + repHello.billable_pages
          = repHello.total_pages
      ∧ repHello.page_details.map (fun r => r.page_number)
          = List.range' 1 [pageHello].length) :=
  ⟨by with_unfolding_all decide,
    C3_report_invariant 1 (1/10) dictAll none 0 [pageHello] repHello
      (by with_unfolding_all decide)⟩

/-- Claim C4: when the native text alone passes the length threshold and
the gibberish test, the page is classified Billable with recorded length
equal to the native text length, no external call (rasterize, image
decode, OCR) is made, no cancellation tick is consumed, and the outcome
is identical for any page with the same native text but different
raster, raster-OCR or embedded-image inputs. -/
theorem C4_fast_accept_noninterference (bt vt : ℚ) (dict : String → Bool)
    (ca : Option Nat) (chk : Nat) (p q : Page)
    (h : fastAccept bt vt dict (pageText p) = true)
    (hq : q.text = p.text) :
    processPage bt vt dict ca chk p
      = ⟨some (PageStatus.Billable, (pageText p).length), chk, []⟩
    ∧ processPage bt vt dict ca chk q = processPage bt vt dict ca chk p := by
  have hpq : pageText q = pageText p := by rw [pageText, pageText, hq]
  constructor
  · simp [processPage, h]
  · simp [processPage, hpq, h]

/-- Witness for C4: the fast-accepting page pageHello against pageHelloB,
which has the same native text but a raster and an embedded image. -/
theorem C4_witness :
    fastAccept 1 (1/10) dictAll (pageText pageHello) = true
    ∧ pageHelloB.text = pageHello.text
    ∧ processPage 1 (1/10) dictAll none 0 pageHello
        = ⟨some (PageStatus.Billable, (pageText pageHello).length), 0, []⟩
    ∧ processPage 1 (1/10) dictAll none 0 pageHelloB
        = processPage 1 (1/10) dictAll none 0 pageHello := by
  have h := C4_fast_accept_noninterference 1 (1/10) dictAll none 0
    pageHello pageHelloB (by with_unfolding_all decide) rfl
  exact ⟨by with_unfolding_all decide, rfl, h.1, h.2⟩

/-- Claim C5 (code bug at line 87): when the first document of a batch
fails to open, the local variable filename read by the progress update
is unbound, so the whole run aborts through the generic exception
handler instead of continuing with the remaining documents; the same
failing document placed after a successful one is skipped as the claim
describes. -/
theorem C5_first_document_failure_bug :
    runBatch 1 (1/10) dictAll none
        [(badName, OpenResult.openError), (goodName, OpenResult.ok [pageHello])]
      = Outcome.failed nameErrorMsg
    ∧ runBatch 1 (1/10) dictAll none
        [(goodName, OpenResult.ok [pageHello]), (badName, OpenResult.openError)]
      = Outcome.complete [(goodName, repHello)] :=
  ⟨by with_unfolding_all decide, by with_unfolding_all decide⟩

theorem runLoop_zeroPages (bt vt : ℚ) (dict : String → Bool) (names : List String) :
    ∀ (chk : Nat) (all : List (String × DocReport)) (lastF : Option String),
      runLoopFrom bt vt dict none chk (names.map (fun n => (n, OpenResult.ok []))) all lastF
        = Except.ok (all ++ names.map (fun n => (n, emptyReport)), chk + names.length) := by
  induction names with
  | nil =>
    intro chk all lastF
    simp [runLoopFrom]
  | cons n rest ih =>
    intro chk all lastF
    rw [List.map_cons, runLoopFrom]
    simp only [isRunningAt, if_true]
    have hap : analyze_pdf bt vt dict none (chk + 1) (OpenResult.ok [])
        = (some emptyReport, chk + 1) := by
      simp [analyze_pdf, pagesLoop, emptyReport]
    rw [hap]
    show runLoopFrom bt vt dict none (chk + 1)
        (List.map (fun n => (n, OpenResult.ok [])) rest) (all ++ [(n, emptyReport)]) (some n) = _
    rw [ih]
    simp [List.append_assoc]
    omega

/-- Claim C10: a document that opens with zero pages still completes,
with an all-zero report and empty page list, and a batch consisting only
of such documents ends in the complete signal (the empty-batch failure
counts documents without a report, not pages). -/
theorem C10_zero_page_documents (bt vt : ℚ) (dict : String → Bool) (chk : Nat)
    (names : List String) (hne : names ≠ []) :
    (analyze_pdf bt vt dict none chk (OpenResult.ok [])).1 = some emptyReport
    ∧ runBatch bt vt dict none (names.map (fun n => (n, OpenResult.ok [])))
        = Outcome.complete (names.map (fun n => (n, emptyReport))) := by
  constructor
  · simp [analyze_pdf, pagesLoop, emptyReport]
  · rw [runBatch, runBatchFrom, runLoop_zeroPages]
    simp only [List.nil_append, isRunningAt, if_true]
    rw [if_neg]
    intro habs
    exact hne (by simpa using habs)

/-- Witness for C10 at a batch of one zero-page document. -/
theorem C10_witness :
    [aName] ≠ ([] : List String)
    ∧ ((analyze_pdf 1 (1/10) dictAll none 0 (OpenResult.ok [])).1 = some emptyReport
      ∧ runBatch 1 (1/10) dictAll none ([aName].map (fun n => (n, OpenResult.ok [])))
          = Outcome.complete ([aName].map (fun n => (n, emptyReport)))) :=
  ⟨by decide, C10_zero_page_documents 1 (1/10) dictAll 0 [aName] (by decide)⟩

theorem runLoopFrom_nil (bt vt : ℚ) (dict : String → Bool) (ca : Option Nat)
    (chk : Nat) (all : List (String × DocReport)) (lastF : Option String) :
    runLoopFrom bt vt dict ca chk [] all lastF = Except.ok (all, chk) := rfl

theorem runLoopFrom_cons (bt vt : ℚ) (dict : String → Bool) (ca : Option Nat)
    (chk : Nat) (name : String) (d : OpenResult) (rest : List (String × OpenResult))
    (all : List (String × DocReport)) (lastF : Option String) :
    runLoopFrom bt vt dict ca chk ((name, d) :: rest) all lastF
      = if isRunningAt ca chk then
          match analyze_pdf bt vt dict ca (chk + 1) d with
          | (some rep, chk') =>
            runLoopFrom bt vt dict ca chk' rest (all ++ [(name, rep)]) (some name)
          | (none, chk') =>
            match lastF with
            | none => Except.error nameErrorMsg
            | some _ => runLoopFrom bt vt dict ca chk' rest all lastF
        else Except.ok (all, chk + 1) := rfl

theorem imageLoop_cancel_k (k : Nat) (imgs : List PageImage) :
    ∀ (chk : Nat) (acc : String) (calls : List ExtCall) (c : Nat) (cs : List ExtCall),
      imageLoop (some k) chk imgs acc calls = (none, c, cs) → k ≤ c := by
  induction imgs with
  | nil =>
    intro chk acc calls c cs h
    rw [imageLoop] at h
    simp at h
  | cons img rest ih =>
    intro chk acc calls c cs h
    rw [imageLoop] at h
    by_cases hr : isRunningAt (some k) chk
    · rw [if_pos hr] at h
      exact ih (chk + 1) (acc ++ analyze_image img ++ " ") (calls ++ imageCallsOf img) c cs h
    · rw [if_neg hr] at h
      simp only [isRunningAt, decide_eq_true_eq] at hr
      simp only [Prod.mk.injEq] at h
      omega

theorem processPage_cancel_k (bt vt : ℚ) (dict : String → Bool) (k chk : Nat) (p : Page)
    (h : (processPage bt vt dict (some k) chk p).result = none) :
    k ≤ (processPage bt vt dict (some k) chk p).chkOut := by
  by_cases hf : fastAccept bt vt dict (pageText p)
  · simp [processPage, hf] at h
  · simp only [processPage, hf, Bool.false_eq_true, if_false] at h ⊢
    rcases hIL : imageLoop (some k) chk (imagesOf p) ""
        (if (pageText p).trim = "" then rasterCallsOf p else []) with ⟨o, c, cs⟩
    cases o with
    | none => exact imageLoop_cancel_k k (imagesOf p) chk "" _ c cs hIL
    | some s =>
      rw [hIL] at h
      simp at h

theorem pagesLoop_cancel_k (bt vt : ℚ) (dict : String → Bool) (k : Nat)
    (pages : List Page) :
    ∀ (chk i b g l : Nat) (det : List PageRecord) (c : Nat),
      pagesLoop bt vt dict (some k) chk i pages b g l det = (none, c) → k ≤ c := by
  induction pages with
  | nil =>
    intro chk i b g l det c h
    rw [pagesLoop] at h
    simp at h
  | cons p rest ih =>
    intro chk i b g l det c h
    rw [pagesLoop] at h
    by_cases hr : isRunningAt (some k) chk
    · rw [if_pos hr] at h
      rcases hpp : processPage bt vt dict (some k) (chk + 1) p with ⟨res, c2, cs⟩
      rw [hpp] at h
      cases res with
      | none =>
        simp only [Prod.mk.injEq] at h
        have hk := processPage_cancel_k bt vt dict k (chk + 1) p (by rw [hpp])
        rw [hpp] at hk
        have hk2 : k ≤ c2 := hk
        omega
      | some r =>
        rcases r with ⟨st, len⟩
        exact ih c2 (i + 1) _ _ _ _ c h
    · rw [if_neg hr] at h
      simp only [isRunningAt, decide_eq_true_eq] at hr
      simp only [Prod.mk.injEq] at h
      omega

theorem analyze_pdf_cancel_k (bt vt : ℚ) (dict : String → Bool) (k chk : Nat)
    (pages : List Page)
    (h : (analyze_pdf bt vt dict (some k) chk (OpenResult.ok pages)).1 = none) :
    k ≤ (analyze_pdf bt vt dict (some k) chk (OpenResult.ok pages)).2 := by
  rw [analyze_pdf] at h ⊢
  rcases hpl : pagesLoop bt vt dict (some k) chk 0 pages 0 0 0 [] with ⟨o, c⟩
  cases o with
  | none => exact pagesLoop_cancel_k bt vt dict k pages chk 0 0 0 0 [] c hpl
  | some q =>
    rcases q with ⟨b, g, l, det⟩
    rw [hpl] at h
    simp at h

/-- Claim C6 counterexample: a concrete batch where the first document
completes and cancellation is observed during the second.  The run does
not end in a distinct cancelled outcome without a message: it ends in
the failure signal carrying the non-empty message of cancelledMsg, and
no complete signal with reports is emitted. -/
theorem C6_counterexample :
    runBatch 1 (1/10) dictAll (some 4)
        [(aName, OpenResult.ok [pageHello]), (bName, OpenResult.ok [pageTwoImgs])]
      = Outcome.failed cancelledMsg
    ∧ cancelledMsg ≠ "" :=
  ⟨by with_unfolding_all decide, by decide⟩

/-- Claim C6 amended: when cancellation is observed while a document is
being processed (its analyze_pdf run returns none) and an earlier
document already produced a result (so the filename local is bound), no
report is emitted for the cancelled document and the batch terminates
through the failure signal carrying the cancelled message. -/
theorem C6_amended_cancellation_outcome (bt vt : ℚ) (dict : String → Bool)
    (k chk : Nat) (name f : String) (pages : List Page)
    (rest : List (String × OpenResult)) (all : List (String × DocReport))
    (hstart : chk < k)
    (hcancel : (analyze_pdf bt vt dict (some k) (chk + 1) (OpenResult.ok pages)).1 = none) :
    runBatchFrom bt vt dict (some k) chk ((name, OpenResult.ok pages) :: rest) all (some f)
      = Outcome.failed cancelledMsg := by
  have hrun : isRunningAt (some k) chk = true := by
    simp only [isRunningAt, decide_eq_true_eq]
    omega
  rcases hap : analyze_pdf bt vt dict (some k) (chk + 1) (OpenResult.ok pages) with ⟨o, c⟩
  have hkc : k ≤ c := by
    have hh := analyze_pdf_cancel_k bt vt dict k (chk + 1) pages hcancel
    rw [hap] at hh
    exact hh
  rw [hap] at hcancel
  have ho : o = none := hcancel
  subst ho
  have hloop : runLoopFrom bt vt dict (some k) chk
      ((name, OpenResult.ok pages) :: rest) all (some f)
      = runLoopFrom bt vt dict (some k) c rest all (some f) := by
    rw [runLoopFrom_cons, if_pos hrun, hap]
  have hstop : ∀ m, k ≤ m → isRunningAt (some k) m = false := by
    intro m hm
    simp only [isRunningAt, decide_eq_false_iff_not]
    omega
  rw [runBatchFrom, hloop]
  cases rest with
  | nil =>
    rw [runLoopFrom_nil]
    show (if isRunningAt (some k) c = true then
        (if all = [] then Outcome.failed failedMsg else Outcome.complete all)
      else Outcome.failed cancelledMsg) = Outcome.failed cancelledMsg
    rw [hstop c hkc]
    rfl
  | cons d rest2 =>
    rcases d with ⟨name2, d2⟩
    rw [runLoopFrom_cons, hstop c hkc]
    show (if isRunningAt (some k) (c + 1) = true then
        (if all = [] then Outcome.failed failedMsg else Outcome.complete all)
      else Outcome.failed cancelledMsg) = Outcome.failed cancelledMsg
    rw [hstop (c + 1) (by omega)]
    rfl

/-- Witness for C6 amended: document a has completed (filename bound to
it), cancellation at tick 4 is observed inside document b, and the run
ends with the failure signal carrying the cancelled message. -/
theorem C6_witness :
    2 < 4
    ∧ (analyze_pdf 1 (1/10) dictAll (some 4) 3 (OpenResult.ok [pageTwoImgs])).1 = none
    ∧ runBatchFrom 1 (1/10) dictAll (some 4) 2
        [(bName, OpenResult.ok [pageTwoImgs])] [(aName, repHello)] (some aName)
      = Outcome.failed cancelledMsg :=
  ⟨by decide, by with_unfolding_all decide,
    C6_amended_cancellation_outcome 1 (1/10) dictAll 4 2 bName aName [pageTwoImgs]
      [] [(aName, repHello)] (by decide) (by with_unfolding_all decide)⟩

theorem imageLoop_cancelled (k : Nat) (imgs : List PageImage) :
    ∀ (chk : Nat) (acc : String) (calls : List ExtCall),
      0 < imgs.length → k < chk + imgs.length →
      (imageLoop (some k) chk imgs acc calls).1 = none := by
  induction imgs with
  | nil =>
    intro chk acc calls hpos _
    simp at hpos
  | cons img rest ih =>
    intro chk acc calls _ hk
    rw [imageLoop]
    by_cases hr : isRunningAt (some k) chk
    · rw [if_pos hr]
      simp only [isRunningAt, decide_eq_true_eq] at hr
      cases rest with
      | nil =>
        exfalso
        simp only [List.length_cons, List.length_nil] at hk
        omega
      | cons i2 r2 =>
        refine ih (chk + 1) (acc ++ analyze_image img ++ " ") (calls ++ imageCallsOf img)
          (by simp) ?_
        simp only [List.length_cons] at hk ⊢
        omega
    · rw [if_neg hr]

theorem processPage_cancelled_mid (bt vt : ℚ) (dict : String → Bool) (k chk : Nat)
    (p : Page)
    (hfast : fastAccept bt vt dict (pageText p) = false)
    (himgs : 0 < (imagesOf p).length)
    (hmid : k < chk + (imagesOf p).length) :
    (processPage bt vt dict (some k) chk p).result = none := by
  simp only [processPage, hfast, Bool.false_eq_true, if_false]
  have hil := imageLoop_cancelled k (imagesOf p) chk ""
    (if (pageText p).trim = "" then rasterCallsOf p else []) himgs hmid
  rcases hIL : imageLoop (some k) chk (imagesOf p) ""
      (if (pageText p).trim = "" then rasterCallsOf p else []) with ⟨o, c, cs⟩
  rw [hIL] at hil
  have ho : o = none := hil
  subst ho
  rfl

/-- Claim C7 counterexample: a page with two embedded images, not
fast-accepted; cancellation arrives after the first image has been
analyzed (the before-page checkpoint at tick 1 passed, the first image
checkpoint at tick 2 passed, the second image checkpoint at tick 3 reads
false).  The already-started page does not run to completion: the
document yields none, whereas the same document without cancellation
yields a completed one-page report. -/
theorem C7_counterexample :
    (analyze_pdf 1 (1/10) dictAll (some 3) 1 (OpenResult.ok [pageTwoImgs])).1 = none
    ∧ (analyze_pdf 1 (1/10) dictAll none 1 (OpenResult.ok [pageTwoImgs])).1
        = some ⟨1, 0, 1, 0, [⟨1, PageStatus.Gibberish, 1⟩]⟩ :=
  ⟨by with_unfolding_all decide, by with_unfolding_all decide⟩

/-- Claim C7 amended: cancellation is checked before each document,
before each page, and additionally before each embedded image analysis
within a page; when the before-page check passes but the flag is seen
false at one of the image checkpoints of that page, the started page
does not complete and the document loop returns none. -/
theorem C7_amended_image_checkpoints (bt vt : ℚ) (dict : String → Bool)
    (k chk i b g l : Nat) (det : List PageRecord) (p : Page) (rest : List Page)
    (hfast : fastAccept bt vt dict (pageText p) = false)
    (hstart : chk < k)
    (hmid : k < chk + 1 + (imagesOf p).length) :
    (pagesLoop bt vt dict (some k) chk i (p :: rest) b g l det).1 = none := by
  rw [pagesLoop]
  have hrun : isRunningAt (some k) chk = true := by
    simp only [isRunningAt, decide_eq_true_eq]
    omega
  rw [if_pos hrun]
  have hres := processPage_cancelled_mid bt vt dict k (chk + 1) p hfast
    (by omega) (by omega)
  rcases hpp : processPage bt vt dict (some k) (chk + 1) p with ⟨res, c2, cs⟩
  rw [hpp] at hres
  have hr2 : res = none := hres
  subst hr2
  rfl

/-- Witness for C7 amended at the concrete two-image page: the page
checkpoint at tick 1 passes with cancellation tick 3, which falls on the
second image checkpoint, and the document loop returns none. -/
theorem C7_witness :
    fastAccept 1 (1/10) dictAll (pageText pageTwoImgs) = false
    ∧ 1 < 3
    ∧ 3 < 1 + 1 + (imagesOf pageTwoImgs).length
    ∧ (pagesLoop 1 (1/10) dictAll (some 3) 1 0 [pageTwoImgs] 0 0 0 []).1 = none :=
  ⟨by with_unfolding_all decide, by decide, by with_unfolding_all decide,
    C7_amended_image_checkpoints 1 (1/10) dictAll 3 1 0 0 0 0 [] pageTwoImgs []
      (by with_unfolding_all decide) (by decide) (by with_unfolding_all decide)⟩

theorem countWhite_eq_spec (w h s : Nat) (buf : List Nat)
    (hlen : buf.length = 3 * (w * h)) (hs : 0 < s) :
    ∀ (m k : Nat), w * h - k ≤ m → countWhite buf (s * 3) (3 * k) = specCountWhite w h buf s k := by
  intro m
  induction m with
  | zero =>
    intro k hk
    rw [countWhite, specCountWhite]
    rw [dif_neg (by omega), dif_neg (by omega)]
  | succ m ih =>
    intro k hk
    by_cases hkw : k < w * h
    · rw [countWhite, specCountWhite]
      rw [dif_pos (show 0 < s * 3 ∧ 3 * k < buf.length by constructor <;> omega),
        dif_pos ⟨hs, hkw⟩]
      have h3 : 3 * k + s * 3 = 3 * (k + s) := by ring
      rw [h3, ih (k + s) (by omega)]
    · rw [countWhite, specCountWhite]
      rw [dif_neg (by omega), dif_neg (by omega)]

theorem ceil_div_scale (T s : Nat) (hs : 0 < s) :
    (3 * T + s * 3 - 1) / (s * 3) = (T + s - 1) / s := by
  rcases Nat.eq_zero_or_pos T with hT | hT
  · subst hT
    simp only [Nat.mul_zero, Nat.zero_add]
    rw [Nat.div_eq_of_lt (by omega), Nat.div_eq_of_lt (by omega)]
  · have h1 : 3 * T + s * 3 - 1 = (3 * T - 1) + s * 3 := by omega
    have h2 : T + s - 1 = (T - 1) + s := by omega
    rw [h1, h2, Nat.add_div_right _ (by omega), Nat.add_div_right _ hs]
    have hdm := Nat.div_add_mod (T - 1) s
    have hmod : (T - 1) % s < s := Nat.mod_lt _ hs
    have hq3 : (s * 3) * ((T - 1) / s) = 3 * (s * ((T - 1) / s)) := by ring
    have h4 : 3 * T - 1 = (s * 3) * ((T - 1) / s) + (3 * ((T - 1) % s) + 2) := by omega
    rw [h4, Nat.mul_add_div (show 0 < s * 3 by omega),
      Nat.div_eq_of_lt (show 3 * ((T - 1) % s) + 2 < s * 3 by omega)]

theorem inspectedSampleCount_le (w h : Nat) (buf : List Nat)
    (hlen : buf.length = 3 * (w * h)) :
    inspectedSampleCount ⟨w, h, buf⟩ ≤ 1999 := by
  rw [inspectedSampleCount]
  simp only [hlen, PIXEL_SAMPLING_STRIDE]
  rw [ceil_div_scale (w * h) (max 1 (w * h / 1000)) (by omega)]
  rw [Nat.div_le_iff_le_mul_add_pred (by omega)]
  omega

/-- Claim C8: on an RGB pixmap whose byte buffer holds three channel
bytes per pixel, the blank-pixmap test of the source equals the test
written from the words of the claim (stride = max 1 ((w*h) div 1000),
every stride-th pixel sampled starting at the first, white when all
three channels exceed 240, true iff white / ((w*h)/stride) exceeds the
whiteness threshold), and the sampling loop inspects at most 1999
samples regardless of resolution. -/
theorem C8_blank_pixmap_refinement (w h : Nat) (t : ℚ) (buf : List Nat)
    (hlen : buf.length = 3 * (w * h)) :
    is_likely_blank_pixmap ⟨w, h, buf⟩ t = blankPixmapSpec w h buf t
    ∧ inspectedSampleCount ⟨w, h, buf⟩ ≤ 1999 := by
  constructor
  · rw [is_likely_blank_pixmap, blankPixmapSpec]
    simp only [PIXEL_SAMPLING_STRIDE]
    have hb := countWhite_eq_spec w h (max 1 (w * h / 1000)) buf hlen (by omega)
      (w * h) 0 (by omega)
    simp only [Nat.mul_zero] at hb
    simp only [hb]
  · exact inspectedSampleCount_le w h buf hlen

/-- Witness for C8 at a one-pixel all-white buffer. -/
theorem C8_witness :
    ([255, 255, 255] : List Nat).length = 3 * (1 * 1)
    ∧ (is_likely_blank_pixmap ⟨1, 1, [255, 255, 255]⟩ (98/100)
        = blankPixmapSpec 1 1 [255, 255, 255] (98/100)
      ∧ inspectedSampleCount ⟨1, 1, [255, 255, 255]⟩ ≤ 1999) :=
  ⟨by decide, C8_blank_pixmap_refinement 1 1 (98/100) [255, 255, 255] (by decide)⟩

/-- Claim C9 counterexample: a 2000 x 500 image exceeds the maximum
dimension, so the downscale of line 164 triggers, but the resize clamps
each dimension independently to (1000, 500); the aspect ratio is not
preserved, since an aspect-preserving downscale would satisfy
newWidth * 500 = newHeight * 2000. -/
theorem C9_counterexample :
    (2000 > MAX_IMAGE_DIMENSION || 500 > MAX_IMAGE_DIMENSION) = true
    ∧ processedDims 2000 500 = (1000, 500)
    ∧ (processedDims 2000 500).1 * 500 ≠ (processedDims 2000 500).2 * 2000 :=
  ⟨by decide, by decide, by decide⟩

/-- Claim C9 amended: per embedded image, an unsupported extension, an
undersized byte payload, or a caught decode or OCR failure contributes
the empty string; an accepted image contributes the OCR output on the
image downscaled by clamping each dimension independently to the maximum
bound (not necessarily preserving the aspect ratio) and normalized to
RGB; each contribution followed by a space is concatenated into
image_text; and absent cancellation the page classification always
completes regardless of per-image failures. -/
theorem C9_amended_image_pipeline (bt vt : ℚ) (dict : String → Bool)
    (chk : Nat) (p : Page) :
    (∀ img : PageImage, supportedExts.contains img.ext = false → analyze_image img = "")
    ∧ (∀ img : PageImage, img.byteLen < MIN_IMAGE_SIZE_BYTES → analyze_image img = "")
    ∧ (∀ img : PageImage, img.decodeOk = false → analyze_image img = "")
    ∧ (∀ img : PageImage, supportedExts.contains img.ext = true →
        MIN_IMAGE_SIZE_BYTES ≤ img.byteLen → img.decodeOk = true →
        analyze_image img = img.ocrOut (processedDims img.width img.height))
    ∧ (∀ (img : PageImage) (imgs : List PageImage),
        imageTextOf (img :: imgs) = analyze_image img ++ " " ++ imageTextOf imgs)
    ∧ ((processPage bt vt dict none chk p).result).isSome = true := by
  refine ⟨?_, ?_, ?_, ?_, ?_, ?_⟩
  · intro img hext
    rw [analyze_image, hext]
    rfl
  · intro img hb
    rw [analyze_image]
    cases hc : supportedExts.contains img.ext
    · rfl
    · exact if_pos hb
  · intro img hd
    rw [analyze_image, hd]
    cases hc : supportedExts.contains img.ext
    · rfl
    · by_cases hb : img.byteLen < MIN_IMAGE_SIZE_BYTES
      · exact if_pos hb
      · rw [if_neg hb]
        rfl
  · intro img h1 h2 h3
    rw [analyze_image, h1, h3]
    rw [if_neg (Nat.not_lt.mpr h2)]
    rfl
  · intro img imgs
    rw [imageTextOf]
  · rw [processPage_none]
    rfl

/-- Witness for C9 amended: the unsupported, undersized, failing and
oversized concrete images, and the two-image page completing without
cancellation. -/
theorem C9_witness :
    analyze_image imgGifA = ""
    ∧ analyze_image imgSmall = ""
    ∧ analyze_image imgBad = ""
    ∧ analyze_image imgBig = imgBig.ocrOut (processedDims imgBig.width imgBig.height)
    ∧ imageTextOf [imgGifA, imgGifB] = analyze_image imgGifA ++ " " ++ imageTextOf [imgGifB]
    ∧ ((processPage 1 (1/10) dictAll none 0 pageTwoImgs).result).isSome = true := by
  have h := C9_amended_image_pipeline 1 (1/10) dictAll 0 pageTwoImgs
  exact ⟨h.1 imgGifA (by decide), h.2.1 imgSmall (by decide), h.2.2.1 imgBad (by decide),
    h.2.2.2.1 imgBig (by decide) (by decide) (by decide),
    h.2.2.2.2.1 imgGifA [imgGifB], h.2.2.2.2.2⟩

end PdfAnalyzer
